import Mathlib

/-!
Verification of the rtmpy RPC call-correlation engine (rtmpy/rpc.py) and the
RTMP connection / stream-registry layer (rtmpy/rtmp/init module).

Python dicts are embedded as insertion-ordered association lists with
replace-in-place update, Python lists as Lean lists, and exceptions as
Except values.  Twisted Deferreds are embedded as opaque handles together
with an explicit action (callback / errback) emitted by the code under
verification.
-/

/-- Lookup in a Python dict embedded as an association list. -/
def dget {α β : Type} [BEq α] : List (α × β) → α → Option β
  | [], _ => none
  | p :: rest, k => if p.1 == k then some p.2 else dget rest k

/-- Assignment d[k] = v on a Python dict: replace the value in place if the
key is present, otherwise append the new binding. -/
def dset {α β : Type} [BEq α] : List (α × β) → α → β → List (α × β)
  | [], k, v => [(k, v)]
  | p :: rest, k, v => if p.1 == k then (k, v) :: rest else p :: dset rest k v

/-- Deletion (del d[k], or dict.pop) on a Python dict: drop the binding for
the key, if any. -/
def ddel {α β : Type} [BEq α] : List (α × β) → α → List (α × β)
  | [], _ => []
  | p :: rest, k => if p.1 == k then rest else p :: ddel rest k

/-- The keys of the association list are pairwise distinct, as they are in a
real Python dict. -/
def KeysNodup {α β : Type} (d : List (α × β)) : Prop :=
  (d.map Prod.fst).Nodup

theorem dget_dset_self {α β : Type} [BEq α] [LawfulBEq α]
    (d : List (α × β)) (k : α) (v : β) : dget (dset d k v) k = some v := by
  induction d with
  | nil => simp [dset, dget]
  | cons p rest ih =>
      by_cases h : p.1 == k
      · simp [dset, h, dget]
      · simp [dset, h, dget, ih]

theorem keys_dset_subset {α β : Type} [BEq α] [LawfulBEq α]
    (d : List (α × β)) (k : α) (v : β) :
    ((dset d k v).map Prod.fst) = d.map Prod.fst ∨
      ((dset d k v).map Prod.fst) = d.map Prod.fst ++ [k] := by
  induction d with
  | nil => simp [dset]
  | cons p rest ih =>
      by_cases h : p.1 == k
      · left
        simp only [dset, h, if_true, List.map_cons]
        have : p.1 = k := by exact eq_of_beq h
        simp [this]
      · rcases ih with ih | ih
        · left; simp [dset, h, ih]
        · right; simp [dset, h, ih]

theorem mem_keys_of_dget_some {α β : Type} [BEq α] [LawfulBEq α]
    {d : List (α × β)} {k : α} {v : β} (h : dget d k = some v) :
    k ∈ d.map Prod.fst := by
  induction d with
  | nil => simp [dget] at h
  | cons p rest ih =>
      rw [List.map_cons]
      by_cases hk : p.1 == k
      · have he : p.1 = k := eq_of_beq hk
        rw [he]
        exact List.mem_cons_self _ _
      · simp only [dget] at h
        rw [if_neg hk] at h
        exact List.mem_cons_of_mem _ (ih h)

theorem dget_eq_none_of_not_mem {α β : Type} [BEq α] [LawfulBEq α]
    {d : List (α × β)} {k : α} (h : k ∉ d.map Prod.fst) :
    dget d k = none := by
  induction d with
  | nil => rfl
  | cons p rest ih =>
      rw [List.map_cons] at h
      have h1 : ¬(p.1 == k) := by
        intro hb
        apply h
        rw [← eq_of_beq hb]
        exact List.mem_cons_self _ _
      have h2 : k ∉ rest.map Prod.fst := by
        intro hm
        exact h (List.mem_cons_of_mem _ hm)
      simp only [dget]
      rw [if_neg h1]
      exact ih h2

theorem keys_dset_nodup {α β : Type} [BEq α] [LawfulBEq α]
    (d : List (α × β)) (k : α) (v : β) (h : KeysNodup d) :
    KeysNodup (dset d k v) := by
  induction d with
  | nil => simp [dset, KeysNodup]
  | cons p rest ih =>
      unfold KeysNodup at h ⊢
      rw [List.map_cons, List.nodup_cons] at h
      by_cases hk : p.1 == k
      · simp only [dset]
        rw [if_pos hk, List.map_cons, List.nodup_cons]
        refine ⟨?_, h.2⟩
        rw [← eq_of_beq hk]
        exact h.1
      · simp only [dset]
        rw [if_neg hk, List.map_cons, List.nodup_cons]
        have ihr := ih h.2
        refine ⟨?_, ihr⟩
        rcases keys_dset_subset rest k v with he | he
        · rw [he]; exact h.1
        · rw [he]
          intro hmem
          rcases List.mem_append.mp hmem with hmem | hmem
          · exact h.1 hmem
          · have : p.1 = k := by
              have := List.mem_singleton.mp hmem
              exact this
            rw [this] at hk
            exact hk (beq_self_eq_true k)

theorem ddel_sublist {α β : Type} [BEq α] (d : List (α × β)) (k : α) :
    (ddel d k).Sublist d := by
  induction d with
  | nil => simp [ddel]
  | cons p rest ih =>
      by_cases h : p.1 == k
      · simp only [ddel, h, if_true]
        exact List.sublist_cons_self p rest
      · simp only [ddel, h, if_false]
        exact List.Sublist.cons₂ p ih

theorem keys_ddel_nodup {α β : Type} [BEq α]
    (d : List (α × β)) (k : α) (h : KeysNodup d) : KeysNodup (ddel d k) := by
  exact List.Nodup.sublist (List.Sublist.map Prod.fst (ddel_sublist d k)) h

theorem dget_ddel_self {α β : Type} [BEq α] [LawfulBEq α]
    (d : List (α × β)) (k : α) (h : KeysNodup d) :
    dget (ddel d k) k = none := by
  induction d with
  | nil => rfl
  | cons p rest ih =>
      unfold KeysNodup at h
      rw [List.map_cons, List.nodup_cons] at h
      by_cases hk : p.1 == k
      · simp only [ddel]
        rw [if_pos hk]
        apply dget_eq_none_of_not_mem
        rw [← eq_of_beq hk]
        exact h.1
      · simp only [ddel]
        rw [if_neg hk]
        simp only [dget]
        rw [if_neg hk]
        exact ih h.2

theorem dget_none_iff_not_any {α β : Type} [BEq α] [LawfulBEq α]
    (d : List (α × β)) (k : α) :
    dget d k = none ↔ d.any (fun p => p.1 == k) = false := by
  induction d with
  | nil => simp [dget]
  | cons p rest ih =>
      by_cases hk : p.1 == k
      · simp [dget, hk]
      · simp [dget, hk, ih]

theorem filter_key_length_le_one {α β : Type} [BEq α] [LawfulBEq α]
    (d : List (α × β)) (k : α) (h : KeysNodup d) :
    (d.filter (fun p => p.1 == k)).length ≤ 1 := by
  induction d with
  | nil => simp
  | cons p rest ih =>
      unfold KeysNodup at h
      rw [List.map_cons, List.nodup_cons] at h
      by_cases hk : p.1 == k
      · have hk' : p.1 = k := eq_of_beq hk
        have hfil : rest.filter (fun q => q.1 == k) = [] := by
          rw [List.filter_eq_nil_iff]
          intro q hq
          intro hbeq
          have hqk : q.1 = k := eq_of_beq hbeq
          have hmem : k ∈ rest.map Prod.fst := by
            rw [← hqk]
            exact List.mem_map_of_mem Prod.fst hq
          rw [hk'] at h
          exact h.1 hmem
        rw [List.filter_cons, if_pos hk, hfil]
        simp
      · rw [List.filter_cons, if_neg hk]
        exact ih h.2

/-!
Embedding of rtmpy/rpc.py: call-correlation engine.
-/

/-- The id for an RPC call that does not require or expect a response. -/
def NO_RESULT : Int := 0

/-- The name of the response for a successful RPC call. -/
def RESPONSE_RESULT : String := "_result"

/-- The name of the response for an RPC call that did not succeed. -/
def RESPONSE_ERROR : String := "_error"

/-- The exc.CallFailed exception raised by initiateCall on an already active
explicit call id. -/
inductive RpcError : Type
  | callFailed (callId : Int)
deriving DecidableEq, Repr

/-- State of BaseCallHandler: the last allocated call id and the dict of
active calls (callId to stored context).  The context type is left a
parameter since initiateCall stores an arbitrary argument tuple. -/
structure BaseCallHandler (Ctx : Type) : Type where
  lastCallId : Int
  activeCalls : List (Int × Ctx)
deriving Repr

/-- BaseCallHandler.init: lastCallId = 0, activeCalls = {}. -/
def initHandler {Ctx : Type} : BaseCallHandler Ctx := ⟨0, []⟩

/-- BaseCallHandler.isCallActive: callId in self.activeCalls. -/
def isCallActive {Ctx : Type} (h : BaseCallHandler Ctx) (callId : Int) : Bool :=
  h.activeCalls.any (fun p => p.1 == callId)

/-- BaseCallHandler.getNextCallId: self.lastCallId + 1, no mutation. -/
def getNextCallId {Ctx : Type} (h : BaseCallHandler Ctx) : Int :=
  h.lastCallId + 1

/-- BaseCallHandler.getCallContext: self.activeCalls.get(callId, None). -/
def getCallContext {Ctx : Type} (h : BaseCallHandler Ctx) (callId : Int) :
    Option Ctx :=
  dget h.activeCalls callId

/-- BaseCallHandler.initiateCall: args is the stored context, callId the
optional explicit id keyword.  Omitted id: allocate lastCallId + 1 and
advance the counter.  Explicit id already active: raise exc.CallFailed.
Then activeCalls[callId] = args and the id is returned. -/
def initiateCall {Ctx : Type} (h : BaseCallHandler Ctx) (args : Ctx)
    (callId? : Option Int) : Except RpcError (Int × BaseCallHandler Ctx) :=
  match callId? with
  | none =>
      let callId := getNextCallId h
      Except.ok (callId, ⟨callId, dset h.activeCalls callId args⟩)
  | some callId =>
      if isCallActive h callId then
        Except.error (RpcError.callFailed callId)
      else
        Except.ok (callId, ⟨h.lastCallId, dset h.activeCalls callId args⟩)

/-- BaseCallHandler.finishCall: self.activeCalls.pop(callId, None), returning
the popped context (or none) and the updated handler. -/
def finishCall {Ctx : Type} (h : BaseCallHandler Ctx) (callId : Int) :
    Option Ctx × BaseCallHandler Ctx :=
  match dget h.activeCalls callId with
  | none => (none, h)
  | some ctx => (some ctx, ⟨h.lastCallId, ddel h.activeCalls callId⟩)

/-- BaseCallHandler.discardCall: identical body to finishCall in the source
(activeCalls.pop(callId, None)); kept as a distinct definition to mirror the
distinct method. -/
def discardCall {Ctx : Type} (h : BaseCallHandler Ctx) (callId : Int) :
    Option Ctx × BaseCallHandler Ctx :=
  match dget h.activeCalls callId with
  | none => (none, h)
  | some ctx => (some ctx, ⟨h.lastCallId, ddel h.activeCalls callId⟩)

/-- One operation against a call registry, for stating sequence invariants. -/
inductive CallOp (Ctx : Type) : Type
  | initiate (args : Ctx) (callId? : Option Int)
  | finish (callId : Int)
  | discard (callId : Int)

/-- Apply one operation; a raised exc.CallFailed leaves the registry
unchanged (the Python code raises before any mutation). -/
def applyCallOp {Ctx : Type} (h : BaseCallHandler Ctx) :
    CallOp Ctx → BaseCallHandler Ctx
  | CallOp.initiate args callId? =>
      match initiateCall h args callId? with
      | Except.ok r => r.2
      | Except.error _ => h
  | CallOp.finish callId => (finishCall h callId).2
  | CallOp.discard callId => (discardCall h callId).2

/-- Run a sequence of registry operations from a starting state. -/
def runCallOps {Ctx : Type} (h : BaseCallHandler Ctx)
    (ops : List (CallOp Ctx)) : BaseCallHandler Ctx :=
  ops.foldl applyCallOp h

theorem applyCallOp_keys_nodup {Ctx : Type} (h : BaseCallHandler Ctx)
    (op : CallOp Ctx) (hn : KeysNodup h.activeCalls) :
    KeysNodup (applyCallOp h op).activeCalls := by
  cases op with
  | initiate args callId? =>
      cases callId? with
      | none =>
          simp only [applyCallOp, initiateCall]
          exact keys_dset_nodup _ _ _ hn
      | some callId =>
          simp only [applyCallOp, initiateCall]
          by_cases hact : isCallActive h callId
          · rw [if_pos hact]
            exact hn
          · rw [if_neg hact]
            exact keys_dset_nodup _ _ _ hn
  | finish callId =>
      simp only [applyCallOp, finishCall]
      cases hg : dget h.activeCalls callId with
      | none => exact hn
      | some ctx => exact keys_ddel_nodup _ _ hn
  | discard callId =>
      simp only [applyCallOp, discardCall]
      cases hg : dget h.activeCalls callId with
      | none => exact hn
      | some ctx => exact keys_ddel_nodup _ _ hn

theorem runCallOps_keys_nodup {Ctx : Type} (ops : List (CallOp Ctx))
    (h : BaseCallHandler Ctx) (hn : KeysNodup h.activeCalls) :
    KeysNodup (runCallOps h ops).activeCalls := by
  induction ops generalizing h with
  | nil => exact hn
  | cons op rest ih =>
      exact ih (applyCallOp h op) (applyCallOp_keys_nodup h op hn)

/-!
AbstractCallInitiator (rtmpy/rpc.py).  RPC argument values have the opaque
type V; Deferred handles have the opaque type D.  A Deferred firing is
reported as an explicit DeferredAction value instead of running a callback
chain.
-/

/-- The context tuple (d, name, args, command) stored by callWithResult. -/
structure InitCtx (D V : Type) : Type where
  d : D
  name : String
  args : List V
  command : Option V
deriving Repr

/-- The message.Invoke(name, callId, command, args) message. -/
structure InvokeMsg (V : Type) : Type where
  name : String
  callId : Int
  command : Option V
  args : List V
deriving Repr

/-- The RemoteCallFailed failure wrapping the error payload of an RPC error
response. -/
structure RemoteCallFailed (V : Type) : Type where
  value : V
deriving Repr

/-- What handleResponse did to the stored Deferred d: d.callback(result) or
d.errback(RemoteCallFailed(result)). -/
inductive DeferredAction (D V : Type) : Type
  | callback (d : D) (result : V)
  | errback (d : D) (failure : RemoteCallFailed V)
deriving Repr

/-- AbstractCallInitiator.call: fire-and-forget, builds
message.Invoke(name, NO_RESULT, command, args) and sends it; the registry is
untouched. -/
def callFireAndForget {V : Type} (name : String) (args : List V)
    (command : Option V) : InvokeMsg V :=
  ⟨name, NO_RESULT, command, args⟩

/-- AbstractCallInitiator.callWithResult.  d stands for the freshly built
defer.Deferred(); sendOk says whether self.sendMessage(m) returns normally
or raises.  On a raise the call is discarded and the exception propagates
(the error value of the Except); in both cases the mutated handler is
returned. -/
def callWithResult {D V : Type} (sendOk : Bool) (d : D) (name : String)
    (args : List V) (command : Option V)
    (h : BaseCallHandler (InitCtx D V)) :
    BaseCallHandler (InitCtx D V) × Except Unit (D × InvokeMsg V) :=
  match initiateCall h ⟨d, name, args, command⟩ none with
  | Except.error _ => (h, Except.error ())
  | Except.ok (callId, h1) =>
      let m : InvokeMsg V := ⟨name, callId, command, args⟩
      if sendOk then
        (h1, Except.ok (d, m))
      else
        ((discardCall h1 callId).2, Except.error ())

/-- AbstractCallInitiator.handleResponse: finishCall first, then dispatch on
the response name.  Unmatched call ids and unknown response names only log;
the Deferred action (if any) is returned alongside the new state. -/
def handleResponse {D V : Type} (h : BaseCallHandler (InitCtx D V))
    (name : String) (callId : Int) (result : V) (command : Option V) :
    BaseCallHandler (InitCtx D V) × Option (DeferredAction D V) :=
  let r := finishCall h callId
  match r.1 with
  | none => (r.2, none)
  | some ctx =>
      if name == RESPONSE_RESULT then
        (r.2, some (DeferredAction.callback ctx.d result))
      else if name == RESPONSE_ERROR then
        (r.2, some (DeferredAction.errback ctx.d ⟨result⟩))
      else
        (r.2, none)

/-!
Embedding of getExposedMethods (rtmpy/rpc.py).  A Python class object is
represented by the data the function reads: for each class in
inspect.getmro(cls) - most-derived first, the class itself at the head -
the optional exposed-name dict stored in that class's own dict slot, plus
the optional cache slot on cls itself.
-/

/-- The view of a Python class taken by getExposedMethods. -/
structure PyClass : Type where
  mroExposed : List (Option (List (String × String)))
  exposedMroCache : Option (List (String × String))
deriving Repr

/-- Python dict.update(other): assign every binding of other into the
receiver, in order. -/
def updateDict {α β : Type} [BEq α] (ret other : List (α × β)) :
    List (α × β) :=
  other.foldl (fun acc kv => dset acc kv.1 kv.2) ret

/-- getExposedMethods: return the cached table if present, otherwise fold
dict.update over the exposed dicts of the mro (most-derived first) starting
from {} and cache the result on the class. -/
def getExposedMethods (cls : PyClass) : List (String × String) × PyClass :=
  match cls.exposedMroCache with
  | some methods => (methods, cls)
  | none =>
      let ret := cls.mroExposed.foldl
        (fun ret m? =>
          match m? with
          | none => ret
          | some methods => updateDict ret methods) []
      (ret, { cls with exposedMroCache := some ret })

/-!
Embedding of the rtmp module (rtmpy/rtmp/ package init file): stream
registry and BaseProtocol connection state machine.  Stream objects have
the opaque type S; registering stamps the stream object with its id, which
is a mutation of the stream object itself and not of the registry, so it is
not part of the registry state here.
-/

/-- Maximum number of streams that can be active per RTMP stream. -/
def MAX_STREAMS : Nat := 0xffff

/-- Exceptions raised by the stream registry: ValueError for an out-of-range
id in registerStream, IndexError for an unknown id in removeStream. -/
inductive StreamError : Type
  | valueError (streamId : Int)
  | indexError (streamId : Int)
deriving DecidableEq, Repr

/-- The stream bookkeeping of BaseProtocol: the streams dict and the
activeStreams list (which, unlike the dict, can hold duplicates). -/
structure StreamRegistry (S : Type) : Type where
  streams : List (Int × S)
  activeStreams : List Int
deriving Repr

/-- BaseProtocol.registerStream: range-check the id, then
streams[streamId] = stream and activeStreams.append(streamId). -/
def registerStream {S : Type} (st : StreamRegistry S) (streamId : Int)
    (stream : S) : Except StreamError (StreamRegistry S) :=
  if streamId < 0 ∨ streamId > (MAX_STREAMS : Int) then
    Except.error (StreamError.valueError streamId)
  else
    Except.ok ⟨dset st.streams streamId stream,
      st.activeStreams ++ [streamId]⟩

/-- BaseProtocol.getStream: plain dict lookup (KeyError when absent). -/
def getStream {S : Type} (st : StreamRegistry S) (streamId : Int) :
    Except StreamError S :=
  match dget st.streams streamId with
  | none => Except.error (StreamError.indexError streamId)
  | some s => Except.ok s

/-- BaseProtocol.removeStream: look the stream up (KeyError becomes
IndexError), then del streams[streamId] and
activeStreams.remove(streamId), which drops only the first occurrence. -/
def removeStream {S : Type} (st : StreamRegistry S) (streamId : Int) :
    Except StreamError (S × StreamRegistry S) :=
  match dget st.streams streamId with
  | none => Except.error (StreamError.indexError streamId)
  | some s =>
      Except.ok (s, ⟨ddel st.streams streamId,
        st.activeStreams.erase streamId⟩)

/-- Insertion step of the ascending sort used to model
activeStreams.sort(). -/
def insertSorted (x : Int) : List Int → List Int
  | [] => [x]
  | y :: ys => if x ≤ y then x :: y :: ys else y :: insertSorted x ys

/-- Ascending sort of the activeStreams list (list.sort()). -/
def sortInts : List Int → List Int
  | [] => []
  | x :: xs => insertSorted x (sortInts xs)

/-- The scanning loop of getNextAvailableStreamId: i is the candidate id
counter, j the enumerate index.  The source compares j with i (not the
stored streamId with i), so the early return never fires. -/
def nextIdLoop : Nat → Nat → List Int → Nat
  | i, _, [] => i
  | i, j, _ :: rest => if j != i then i else nextIdLoop (i + 1) (j + 1) rest

/-- BaseProtocol.getNextAvailableStreamId: None at exactly MAX_STREAMS
active entries, otherwise sort activeStreams in place and run the scanning
loop.  Returns the value together with the registry holding the sorted
list. -/
def getNextAvailableStreamId {S : Type} (st : StreamRegistry S) :
    Option Nat × StreamRegistry S :=
  if st.activeStreams.length == MAX_STREAMS then
    (none, st)
  else
    let sorted := sortInts st.activeStreams
    (some (nextIdLoop 0 0 sorted), ⟨st.streams, sorted⟩)

/-- A stream id is active when it occurs in the activeStreams list. -/
def isStreamActive {S : Type} (st : StreamRegistry S) (streamId : Int) :
    Bool :=
  st.activeStreams.contains streamId

/-!
BaseProtocol connection state machine.  The codec decoder and encoder and
the handshake negotiator are held abstractly: only their presence matters
to the state machine.
-/

/-- The two values the state attribute takes (HANDSHAKE and STREAM). -/
inductive ConnState : Type
  | handshake
  | stream
deriving DecidableEq, Repr

/-- The BaseProtocol attributes touched by the connection state machine. -/
structure BaseProtocol : Type where
  state : ConnState
  decoder : Option Unit
  encoder : Option Unit
  handshaker : Bool
  registry : Option (StreamRegistry Nat)
  transportOpen : Bool
deriving Repr

/-- BaseProtocol.connectionMade: no encoder or decoder yet, state HANDSHAKE,
handshake negotiator built, transport connected. -/
def connectionMade : BaseProtocol :=
  ⟨ConnState.handshake, none, none, true, none, true⟩

/-- BaseProtocol.handshakeSuccess: state STREAM, fresh stream bookkeeping,
codec decoder and encoder built, negotiator deleted. -/
def handshakeSuccess (p : BaseProtocol) : BaseProtocol :=
  { p with
    state := ConnState.stream
    registry := some ⟨[], []⟩
    decoder := some ()
    encoder := some ()
    handshaker := false }

/-- BaseProtocol.handshakeFailure: drops the connection immediately, nothing
else. -/
def handshakeFailure (p : BaseProtocol) : BaseProtocol :=
  { p with transportOpen := false }

/-- Where BaseProtocol.dataReceived routes an inbound chunk. -/
inductive DataRoute : Type
  | toStream
  | toHandshake
deriving DecidableEq, Repr

/-- BaseProtocol.dataReceived: route on the state attribute (the final
unknown-state branch is unreachable for the two-valued state). -/
def dataReceivedRoute (p : BaseProtocol) : DataRoute :=
  match p.state with
  | ConnState.stream => DataRoute.toStream
  | ConnState.handshake => DataRoute.toHandshake

/-- BaseProtocol.decodeStream: self.decoder.dataReceived(data); an
AttributeError (error ()) when the decoder has not been built yet. -/
def decodeStream (p : BaseProtocol) : Except Unit Unit :=
  match p.decoder with
  | none => Except.error ()
  | some _ => Except.ok ()

/-- Lifecycle events delivered to a protocol instance after
connectionMade. -/
inductive ProtoEvent : Type
  | hsSuccess
  | hsFailure
  | dataRecv
deriving DecidableEq, Repr

/-- Effect of one lifecycle event on the protocol attributes (dataReceived
only routes, it does not alter them). -/
def stepEvent (p : BaseProtocol) : ProtoEvent → BaseProtocol
  | ProtoEvent.hsSuccess => handshakeSuccess p
  | ProtoEvent.hsFailure => handshakeFailure p
  | ProtoEvent.dataRecv => p

/-- Run a list of lifecycle events in order. -/
def runEvents (p : BaseProtocol) (evs : List ProtoEvent) : BaseProtocol :=
  evs.foldl stepEvent p

theorem stepEvent_stream_preserved (p : BaseProtocol) (e : ProtoEvent)
    (h : p.state = ConnState.stream) :
    (stepEvent p e).state = ConnState.stream := by
  cases e <;> simp [stepEvent, handshakeSuccess, handshakeFailure, h]

theorem runEvents_stream_preserved (evs : List ProtoEvent) (p : BaseProtocol)
    (h : p.state = ConnState.stream) :
    (runEvents p evs).state = ConnState.stream := by
  induction evs generalizing p with
  | nil => exact h
  | cons e rest ih =>
      exact ih (stepEvent p e) (stepEvent_stream_preserved p e h)

theorem runEvents_stream_of_mem (evs : List ProtoEvent) (p : BaseProtocol)
    (h : ProtoEvent.hsSuccess ∈ evs) :
    (runEvents p evs).state = ConnState.stream := by
  induction evs generalizing p with
  | nil => cases h
  | cons e rest ih =>
      rcases List.mem_cons.mp h with he | he
      · cases he
        exact runEvents_stream_preserved rest _ rfl
      · exact ih (stepEvent p e) he

theorem runEvents_no_success (evs : List ProtoEvent) (p : BaseProtocol)
    (h : ProtoEvent.hsSuccess ∉ evs) (hs : p.state = ConnState.handshake)
    (hd : p.decoder = none) :
    (runEvents p evs).state = ConnState.handshake ∧
      (runEvents p evs).decoder = none := by
  induction evs generalizing p with
  | nil => exact ⟨hs, hd⟩
  | cons e rest ih =>
      have hne : e ≠ ProtoEvent.hsSuccess := by
        intro he
        exact h (he ▸ List.mem_cons_self _ _)
      have hrest : ProtoEvent.hsSuccess ∉ rest := by
        intro hm
        exact h (List.mem_cons_of_mem _ hm)
      cases e with
      | hsSuccess => exact absurd rfl hne
      | hsFailure =>
          exact ih (stepEvent p ProtoEvent.hsFailure) hrest hs hd
      | dataRecv =>
          exact ih p hrest hs hd

theorem nextIdLoop_self_eq (l : List Int) :
    ∀ i : Nat, nextIdLoop i i l = i + l.length := by
  induction l with
  | nil => intro i; simp [nextIdLoop]
  | cons x rest ih =>
      intro i
      simp only [nextIdLoop, bne_self_eq_false, Bool.false_eq_true, if_false,
        List.length_cons]
      rw [ih (i + 1)]
      omega

theorem insertSorted_length (x : Int) (l : List Int) :
    (insertSorted x l).length = l.length + 1 := by
  induction l with
  | nil => rfl
  | cons y ys ih =>
      by_cases h : x ≤ y
      · simp [insertSorted, h]
      · simp [insertSorted, h, ih]

theorem sortInts_length (l : List Int) : (sortInts l).length = l.length := by
  induction l with
  | nil => rfl
  | cons x xs ih =>
      simp [sortInts, insertSorted_length, ih]

theorem sortInts_replicate_zero (n : Nat) :
    sortInts (List.replicate n (0 : Int)) = List.replicate n 0 := by
  induction n with
  | zero => rfl
  | succ m ih =>
      rw [List.replicate_succ, sortInts, ih]
      cases m with
      | zero => rfl
      | succ m2 =>
          rw [List.replicate_succ]
          simp [insertSorted]

/-!
Claim theorems.
-/

/-- C1: the claim says getNextAvailableStreamId returns the smallest
non-negative id not currently active, in particular 1 after registering ids
0 and 2.  Evaluating the code on exactly that registry: the scanning loop
compares the enumerate index with the candidate counter (always equal), so
it falls through and returns the number of active streams, 2, which is
itself an active id; the free id 1 is never produced. -/
theorem C1_gap_scan_returns_count_not_smallest_free :
    registerStream (StreamRegistry.mk ([] : List (Int × Nat)) []) 0 100 =
      Except.ok ⟨[(0, 100)], [0]⟩ ∧
    registerStream (StreamRegistry.mk [((0 : Int), (100 : Nat))] [0]) 2 101 =
      Except.ok ⟨[(0, 100), (2, 101)], [0, 2]⟩ ∧
    (getNextAvailableStreamId
      (StreamRegistry.mk [((0 : Int), (100 : Nat)), (2, 101)] [0, 2])).1 =
      some 2 ∧
    isStreamActive
      (StreamRegistry.mk [((0 : Int), (100 : Nat)), (2, 101)] [0, 2]) 2 =
      true ∧
    isStreamActive
      (StreamRegistry.mk [((0 : Int), (100 : Nat)), (2, 101)] [0, 2]) 1 =
      false := by
  refine ⟨rfl, rfl, rfl, rfl, rfl⟩

/-- C4 counterexample: with 65535 active streams (fewer than the 65536 the
claim names) the code already returns the no-capacity signal, and with
65536 active streams it returns an integer again (65536, which is even out
of the valid id range). -/
theorem C4_counterexample_threshold_is_65535 :
    ((List.replicate 65535 (0 : Int)).length < 65536 ∧
      (getNextAvailableStreamId (StreamRegistry.mk ([] : List (Int × Nat))
        (List.replicate 65535 0))).1 = none) ∧
    ((List.replicate 65536 (0 : Int)).length = 65536 ∧
      (getNextAvailableStreamId (StreamRegistry.mk ([] : List (Int × Nat))
        (List.replicate 65536 0))).1 = some 65536) := by
  refine ⟨⟨?_, ?_⟩, ?_, ?_⟩
  · rw [List.length_replicate]
    decide
  · have hlen : (List.replicate 65535 (0 : Int)).length = 65535 := by
      rw [List.length_replicate]
    simp only [getNextAvailableStreamId, hlen, MAX_STREAMS]
    rw [if_pos (beq_self_eq_true (65535 : Nat))]
  · rw [List.length_replicate]
  · have hlen : (List.replicate 65536 (0 : Int)).length = 65536 := by
      rw [List.length_replicate]
    have hne : ((65536 : Nat) == MAX_STREAMS) = false := by decide
    simp only [getNextAvailableStreamId, hlen, hne, Bool.false_eq_true,
      if_false]
    rw [sortInts_replicate_zero, nextIdLoop_self_eq]
    rw [List.length_replicate]

/-- C4 (amended): getNextAvailableStreamId returns the no-capacity signal
(none) when exactly 65535 (MAX_STREAMS) streams are active, and an integer
stream id whenever fewer streams are active. -/
theorem C4_capacity_threshold {S : Type} (st : StreamRegistry S) :
    (st.activeStreams.length = MAX_STREAMS →
      (getNextAvailableStreamId st).1 = none) ∧
    (st.activeStreams.length < MAX_STREAMS →
      ∃ n : Nat, (getNextAvailableStreamId st).1 = some n) := by
  constructor
  · intro h
    simp only [getNextAvailableStreamId]
    rw [if_pos]
    rw [h]
    exact beq_self_eq_true _
  · intro h
    have hne : (st.activeStreams.length == MAX_STREAMS) = false := by
      rw [beq_eq_false_iff_ne]
      exact Nat.ne_of_lt h
    simp only [getNextAvailableStreamId, hne, Bool.false_eq_true, if_false]
    exact ⟨_, rfl⟩

/-- C4 witness: the amended theorem applied to an empty registry and to a
registry holding exactly 65535 active streams. -/
theorem C4_capacity_threshold_witness :
    (∃ n : Nat, (getNextAvailableStreamId
      (StreamRegistry.mk ([] : List (Int × Nat)) [])).1 = some n) ∧
    (getNextAvailableStreamId (StreamRegistry.mk ([] : List (Int × Nat))
      (List.replicate 65535 0))).1 = none := by
  constructor
  · exact (C4_capacity_threshold
      (StreamRegistry.mk ([] : List (Int × Nat)) [])).2 (by decide)
  · exact (C4_capacity_threshold
      (StreamRegistry.mk ([] : List (Int × Nat)) (List.replicate 65535 0))).1
      (by rw [List.length_replicate, MAX_STREAMS])

/-- C10: registerStream raises the ValueError exactly when the id is below 0
or above MAX_STREAMS; any in-range id, an already-registered one included,
succeeds: the stored stream for the id is overwritten and the id is appended
again to activeStreams, so activeStreams can hold duplicate ids, and a
subsequent removeStream drops only one occurrence, leaving the id active. -/
theorem C10_registerStream_range_and_duplicate_ids {S : Type}
    (st : StreamRegistry S) (i : Int) (s t : S) :
    ((∃ e, registerStream st i s = Except.error e) ↔
      (i < 0 ∨ i > (MAX_STREAMS : Int))) ∧
    (∀ st1, registerStream st i s = Except.ok st1 →
      dget st1.streams i = some s ∧
      st1.activeStreams = st.activeStreams ++ [i] ∧
      ∀ st2, registerStream st1 i t = Except.ok st2 →
        dget st2.streams i = some t ∧
        st2.activeStreams = st.activeStreams ++ [i, i] ∧
        ∃ st3, removeStream st2 i = Except.ok (t, st3) ∧
          st3.activeStreams.count i + 1 = st2.activeStreams.count i ∧
          isStreamActive st3 i = true) := by
  constructor
  · constructor
    · rintro ⟨e, he⟩
      by_contra hrange
      simp only [registerStream, if_neg hrange] at he
      exact Except.noConfusion he
    · intro hrange
      refine ⟨StreamError.valueError i, ?_⟩
      simp only [registerStream, if_pos hrange]
  · intro st1 h1
    by_cases hrange : i < 0 ∨ i > (MAX_STREAMS : Int)
    · simp only [registerStream, if_pos hrange] at h1
      exact Except.noConfusion h1
    · simp only [registerStream, if_neg hrange] at h1
      cases h1
      refine ⟨dget_dset_self _ _ _, rfl, ?_⟩
      intro st2 h2
      simp only [registerStream, if_neg hrange] at h2
      cases h2
      refine ⟨dget_dset_self _ _ _, by rw [List.append_assoc]; rfl, ?_⟩
      have hget : dget (dset (dset st.streams i s) i t) i = some t :=
        dget_dset_self _ _ _
      refine ⟨⟨ddel (dset (dset st.streams i s) i t) i,
        ((st.activeStreams ++ [i]) ++ [i]).erase i⟩, ?_, ?_, ?_⟩
      · simp only [removeStream, hget]
      · have hcnt : (((st.activeStreams ++ [i]) ++ [i]).erase i).count i =
            ((st.activeStreams ++ [i]) ++ [i]).count i - 1 :=
          List.count_erase_self i _
        have hpos : 0 < ((st.activeStreams ++ [i]) ++ [i]).count i := by
          rw [List.count_append]
          simp
        simp only [hcnt]
        omega
      · have hpos : 0 < ((((st.activeStreams ++ [i]) ++ [i]).erase i)).count i := by
          have hcnt : (((st.activeStreams ++ [i]) ++ [i]).erase i).count i =
              ((st.activeStreams ++ [i]) ++ [i]).count i - 1 :=
            List.count_erase_self i _
          rw [hcnt, List.count_append, List.count_append]
          simp
        have hmem : i ∈ ((st.activeStreams ++ [i]) ++ [i]).erase i :=
          List.count_pos_iff.mp hpos
        simpa [isStreamActive] using hmem

/-- C10 witness: the range error at id -1 and the duplicate-register then
single-removal chain at id 5, all on an initially empty registry. -/
theorem C10_registerStream_witness :
    (∃ e, registerStream (StreamRegistry.mk ([] : List (Int × Nat)) [])
      (-1) 10 = Except.error e) ∧
    dget (StreamRegistry.mk [((5 : Int), (11 : Nat))] [5, 5]).streams 5 =
      some 11 ∧
    (StreamRegistry.mk [((5 : Int), (11 : Nat))] [5, 5]).activeStreams =
      ([] : List Int) ++ [5, 5] ∧
    ∃ st3,
      removeStream (StreamRegistry.mk [((5 : Int), (11 : Nat))] [5, 5]) 5 =
        Except.ok (11, st3) ∧
      st3.activeStreams.count 5 + 1 =
        (StreamRegistry.mk [((5 : Int), (11 : Nat))]
          [5, 5]).activeStreams.count 5 ∧
      isStreamActive st3 5 = true := by
  have h0 := C10_registerStream_range_and_duplicate_ids
    (StreamRegistry.mk ([] : List (Int × Nat)) []) (-1) 10 11
  have he := h0.1.mpr (Or.inl (by decide))
  have h5 := C10_registerStream_range_and_duplicate_ids
    (StreamRegistry.mk ([] : List (Int × Nat)) []) 5 10 11
  have h1 := h5.2 ⟨[(5, 10)], [5]⟩ rfl
  have h2 := h1.2.2 ⟨[(5, 11)], [5, 5]⟩ rfl
  exact ⟨he, h2⟩

/-- Exposed public name shared by the two declarations. -/
def mExposedName : String := "m"

/-- Local method name the base class registers under the exposed name. -/
def baseMethodName : String := "baseM"

/-- Local method name the derived class registers under the exposed name. -/
def derivedMethodName : String := "derivedM"

/-- A derived class D of a base class B: inspect.getmro(D) yields D first,
then B, then object (no exposed dict of its own).  D exposes the public
name with local method derivedM, B exposes the same public name with local
method baseM. -/
def clsD : PyClass :=
  ⟨[some [(mExposedName, derivedMethodName)],
    some [(mExposedName, baseMethodName)], none], none⟩

/-- C2: the claim says resolution maps a name declared in both a base and a
more-derived class to the most-derived declaration.  Evaluating
getExposedMethods on clsD: the fold walks the mro most-derived first and
dict.update lets every later (less derived) class overwrite, so the base
declaration wins and the derived one is discarded.  The caching half does
hold: the table is stored in the cache slot and a repeated resolution
returns the identical mapping unchanged. -/
theorem C2_resolution_prefers_base_declaration :
    dget (getExposedMethods clsD).1 mExposedName = some baseMethodName ∧
    baseMethodName ≠ derivedMethodName ∧
    (getExposedMethods clsD).2.exposedMroCache =
      some (getExposedMethods clsD).1 ∧
    getExposedMethods (getExposedMethods clsD).2 =
      ((getExposedMethods clsD).1, (getExposedMethods clsD).2) := by
  refine ⟨rfl, by decide, rfl, rfl⟩

/-- C3: over every sequence of initiateCall (with or without an explicit
id), finishCall and discardCall operations run from a fresh registry, each
call id keys at most one entry of the active-call table. -/
theorem C3_at_most_one_active_call_per_id {Ctx : Type}
    (ops : List (CallOp Ctx)) (callId : Int) :
    ((runCallOps initHandler ops).activeCalls.filter
      (fun p => p.1 == callId)).length ≤ 1 := by
  apply filter_key_length_le_one
  apply runCallOps_keys_nodup
  simp [initHandler, KeysNodup]

/-- C7: initiateCall with the id omitted allocates lastCallId + 1, advances
the counter, stores the context under that id and returns it; with an
explicit id it fails with the call-already-active error when the id is
active and otherwise stores the context under the explicit id (counter
untouched) and returns it. -/
theorem C7_initiateCall_contract {Ctx : Type} (h : BaseCallHandler Ctx)
    (args : Ctx) (c : Int) :
    (initiateCall h args none =
      Except.ok (h.lastCallId + 1,
        ⟨h.lastCallId + 1, dset h.activeCalls (h.lastCallId + 1) args⟩)) ∧
    (dget (dset h.activeCalls (h.lastCallId + 1) args) (h.lastCallId + 1) =
      some args) ∧
    (isCallActive h c = true →
      initiateCall h args (some c) =
        Except.error (RpcError.callFailed c)) ∧
    (isCallActive h c = false →
      initiateCall h args (some c) =
        Except.ok (c, ⟨h.lastCallId, dset h.activeCalls c args⟩) ∧
      dget (dset h.activeCalls c args) c = some args) := by
  refine ⟨rfl, dget_dset_self _ _ _, ?_, ?_⟩
  · intro hact
    simp only [initiateCall, hact, if_true]
  · intro hact
    refine ⟨?_, dget_dset_self _ _ _⟩
    simp only [initiateCall, hact, Bool.false_eq_true, if_false]

/-- C7 witness: on a registry with call 1 active, re-initiating call 1
explicitly fails, initiating the free id 2 succeeds, and an id-less
initiation allocates 2 (the advanced counter). -/
theorem C7_initiateCall_witness :
    initiateCall (BaseCallHandler.mk 1 [((1 : Int), (42 : Nat))]) 43
        (some 1) = Except.error (RpcError.callFailed 1) ∧
    initiateCall (BaseCallHandler.mk 1 [((1 : Int), (42 : Nat))]) 43
        (some 2) = Except.ok (2, ⟨1, [(1, 42), (2, 43)]⟩) ∧
    initiateCall (BaseCallHandler.mk 1 [((1 : Int), (42 : Nat))]) 43 none =
      Except.ok (2, ⟨2, [(1, 42), (2, 43)]⟩) := by
  refine ⟨?_, ?_, ?_⟩
  · exact (C7_initiateCall_contract
      (BaseCallHandler.mk 1 [((1 : Int), (42 : Nat))]) 43 1).2.2.1 rfl
  · exact ((C7_initiateCall_contract
      (BaseCallHandler.mk 1 [((1 : Int), (42 : Nat))]) 43 2).2.2.2 rfl).1
  · exact (C7_initiateCall_contract
      (BaseCallHandler.mk 1 [((1 : Int), (42 : Nat))]) 43 2).1

theorem isCallActive_eq_false_of_dget_none {Ctx : Type}
    (h : BaseCallHandler Ctx) (callId : Int)
    (hd : dget h.activeCalls callId = none) :
    isCallActive h callId = false := by
  unfold isCallActive
  exact (dget_none_iff_not_any _ _).mp hd

/-- C5: for a stored call context (d, name, args, command), handleResponse
with the result tag and the call id removes the call and fires exactly
d.callback(result); with the error tag it removes the call and fires
d.errback(RemoteCallFailed(result)); in both cases the call id is no longer
active afterwards. -/
theorem C5_handleResponse_result_and_error {D V : Type}
    (h : BaseCallHandler (InitCtx D V)) (callId : Int) (ctx : InitCtx D V)
    (result : V) (command : Option V) (hn : KeysNodup h.activeCalls)
    (hctx : getCallContext h callId = some ctx) :
    handleResponse h RESPONSE_RESULT callId result command =
      (⟨h.lastCallId, ddel h.activeCalls callId⟩,
        some (DeferredAction.callback ctx.d result)) ∧
    handleResponse h RESPONSE_ERROR callId result command =
      (⟨h.lastCallId, ddel h.activeCalls callId⟩,
        some (DeferredAction.errback ctx.d ⟨result⟩)) ∧
    isCallActive (⟨h.lastCallId, ddel h.activeCalls callId⟩ :
      BaseCallHandler (InitCtx D V)) callId = false := by
  have hd : dget h.activeCalls callId = some ctx := hctx
  have hfin : finishCall h callId =
      (some ctx, ⟨h.lastCallId, ddel h.activeCalls callId⟩) := by
    simp only [finishCall, hd]
  refine ⟨?_, ?_, ?_⟩
  · simp [handleResponse, hfin]
  · simp [handleResponse, hfin, RESPONSE_ERROR, RESPONSE_RESULT]
  · exact isCallActive_eq_false_of_dget_none _ _
      (dget_ddel_self _ _ hn)

/-- Name of the exposed remote method used in concrete witnesses. -/
def addName : String := "add"

/-- C5 witness: a registry holding call 1 with context (7, add, [2, 3],
none); the result response fires callback 7 5 and deactivates the call. -/
theorem C5_handleResponse_witness :
    handleResponse
        (BaseCallHandler.mk 1 [((1 : Int),
          (InitCtx.mk 7 addName [2, 3] none : InitCtx Nat Nat))])
        RESPONSE_RESULT 1 5 none =
      (⟨1, []⟩, some (DeferredAction.callback 7 5)) ∧
    handleResponse
        (BaseCallHandler.mk 1 [((1 : Int),
          (InitCtx.mk 7 addName [2, 3] none : InitCtx Nat Nat))])
        RESPONSE_ERROR 1 5 none =
      (⟨1, []⟩, some (DeferredAction.errback 7 ⟨5⟩)) ∧
    isCallActive
      (BaseCallHandler.mk 1 ([] : List (Int × InitCtx Nat Nat))) 1 =
      false := by
  have h := C5_handleResponse_result_and_error
    (BaseCallHandler.mk 1 [((1 : Int),
      (InitCtx.mk 7 addName [2, 3] none : InitCtx Nat Nat))])
    1 (InitCtx.mk 7 addName [2, 3] none) 5 none
    (by simp [KeysNodup]) rfl
  exact h

/-- C6: when sendMessage raises inside callWithResult, the freshly allocated
call is discarded before the error propagates: the outcome is the
propagated error and the allocated call id (lastCallId + 1, reported by
getNextCallId) is not active in the resulting registry. -/
theorem C6_send_failure_discards_call {D V : Type}
    (h : BaseCallHandler (InitCtx D V)) (d : D) (name : String)
    (args : List V) (command : Option V) (hn : KeysNodup h.activeCalls) :
    (callWithResult false d name args command h).2 = Except.error () ∧
    isCallActive (callWithResult false d name args command h).1
      (getNextCallId h) = false := by
  have hset : dget (dset h.activeCalls (getNextCallId h)
      (⟨d, name, args, command⟩ : InitCtx D V)) (getNextCallId h) =
      some ⟨d, name, args, command⟩ := dget_dset_self _ _ _
  have hstate : (callWithResult false d name args command h).1 =
      ⟨getNextCallId h, ddel (dset h.activeCalls (getNextCallId h)
        ⟨d, name, args, command⟩) (getNextCallId h)⟩ := by
    simp only [callWithResult, initiateCall, Bool.false_eq_true, if_false,
      discardCall, hset]
  constructor
  · simp only [callWithResult, initiateCall, Bool.false_eq_true, if_false]
  · rw [hstate]
    apply isCallActive_eq_false_of_dget_none
    exact dget_ddel_self _ _ (keys_dset_nodup _ _ _ hn)

/-- C6 witness: a send failure on a fresh registry propagates the error and
leaves the allocated id 1 inactive. -/
theorem C6_send_failure_witness :
    (callWithResult false (7 : Nat) addName [(2 : Nat), 3] none
      (initHandler : BaseCallHandler (InitCtx Nat Nat))).2 =
      Except.error () ∧
    isCallActive
      (callWithResult false (7 : Nat) addName [(2 : Nat), 3] none
        (initHandler : BaseCallHandler (InitCtx Nat Nat))).1
      (getNextCallId (initHandler : BaseCallHandler (InitCtx Nat Nat))) =
      false := by
  exact C6_send_failure_discards_call initHandler 7 addName [2, 3] none
    (by simp [initHandler, KeysNodup])

/-- C9: whenever handleResponse finds an active call for the id, the call is
removed from the registry before the response tag is examined, so for every
response name the call is no longer active afterwards; and for a name that
is neither the result tag nor the error tag no Deferred action is fired at
all. -/
theorem C9_handleResponse_removes_before_dispatch {D V : Type}
    (h : BaseCallHandler (InitCtx D V)) (name : String) (callId : Int)
    (result : V) (command : Option V) (hn : KeysNodup h.activeCalls)
    (hact : isCallActive h callId = true) :
    (handleResponse h name callId result command).1 =
      ⟨h.lastCallId, ddel h.activeCalls callId⟩ ∧
    isCallActive (handleResponse h name callId result command).1 callId =
      false ∧
    (name ≠ RESPONSE_RESULT → name ≠ RESPONSE_ERROR →
      (handleResponse h name callId result command).2 = none) := by
  cases hd : dget h.activeCalls callId with
  | none =>
      rw [isCallActive_eq_false_of_dget_none h callId hd] at hact
      exact Bool.noConfusion hact
  | some ctx =>
      have hfin : finishCall h callId =
          (some ctx, ⟨h.lastCallId, ddel h.activeCalls callId⟩) := by
        simp only [finishCall, hd]
      have hfst : (handleResponse h name callId result command).1 =
          ⟨h.lastCallId, ddel h.activeCalls callId⟩ := by
        simp only [handleResponse, hfin]
        by_cases h1 : name == RESPONSE_RESULT
        · simp [h1]
        · by_cases h2 : name == RESPONSE_ERROR
          · simp [h1, h2]
          · simp [h1, h2]
      refine ⟨hfst, ?_, ?_⟩
      · rw [hfst]
        exact isCallActive_eq_false_of_dget_none _ _
          (dget_ddel_self _ _ hn)
      · intro hr he
        have h1 : (name == RESPONSE_RESULT) = false :=
          beq_eq_false_iff_ne.mpr hr
        have h2 : (name == RESPONSE_ERROR) = false :=
          beq_eq_false_iff_ne.mpr he
        simp only [handleResponse, hfin, h1, h2, Bool.false_eq_true,
          if_false]

/-- Name of an unknown response tag used in the C9 witness. -/
def otherResponseName : String := "_other"

/-- C9 witness: an unknown response tag on a registry with call 1 active
deactivates the call and fires nothing. -/
theorem C9_handleResponse_witness :
    (handleResponse
        (BaseCallHandler.mk 1 [((1 : Int),
          (InitCtx.mk 7 addName [2, 3] none : InitCtx Nat Nat))])
        otherResponseName 1 5 none).1 = ⟨1, []⟩ ∧
    isCallActive
      (handleResponse
        (BaseCallHandler.mk 1 [((1 : Int),
          (InitCtx.mk 7 addName [2, 3] none : InitCtx Nat Nat))])
        otherResponseName 1 5 none).1 1 = false ∧
    (handleResponse
        (BaseCallHandler.mk 1 [((1 : Int),
          (InitCtx.mk 7 addName [2, 3] none : InitCtx Nat Nat))])
        otherResponseName 1 5 none).2 = none := by
  have h := C9_handleResponse_removes_before_dispatch
    (BaseCallHandler.mk 1 [((1 : Int),
      (InitCtx.mk 7 addName [2, 3] none : InitCtx Nat Nat))])
    otherResponseName 1 5 none (by simp [KeysNodup]) rfl
  exact ⟨h.1, h.2.1, h.2.2 (by decide) (by decide)⟩

/-- C8: over every event trace from connectionMade, while handshake success
has not occurred the protocol is still in the HANDSHAKE state, so
dataReceived routes to decodeHandshake and a direct decodeStream fails on
the missing decoder; once handshake success is in the trace the state is
STREAM for good, so incoming data is never routed to decodeHandshake; and
handshakeFailure always closes the transport while touching neither the
state nor the decoder (it performs no stream processing). -/
theorem C8_connection_state_machine (evs : List ProtoEvent) :
    (ProtoEvent.hsSuccess ∉ evs →
      (runEvents connectionMade evs).state = ConnState.handshake ∧
      decodeStream (runEvents connectionMade evs) = Except.error () ∧
      dataReceivedRoute (runEvents connectionMade evs) =
        DataRoute.toHandshake) ∧
    (ProtoEvent.hsSuccess ∈ evs →
      (runEvents connectionMade evs).state = ConnState.stream ∧
      dataReceivedRoute (runEvents connectionMade evs) =
        DataRoute.toStream) ∧
    (∀ p : BaseProtocol,
      (handshakeFailure p).transportOpen = false ∧
      (handshakeFailure p).state = p.state ∧
      (handshakeFailure p).decoder = p.decoder) := by
  refine ⟨?_, ?_, ?_⟩
  · intro hno
    obtain ⟨hs, hd⟩ := runEvents_no_success evs connectionMade hno rfl rfl
    refine ⟨hs, ?_, ?_⟩
    · simp only [decodeStream, hd]
    · simp only [dataReceivedRoute, hs]
  · intro hmem
    have hs := runEvents_stream_of_mem evs connectionMade hmem
    refine ⟨hs, ?_⟩
    simp only [dataReceivedRoute, hs]
  · intro p
    exact ⟨rfl, rfl, rfl⟩

/-- C8 witness: the trace that only fails the handshake stays in HANDSHAKE
with decodeStream failing, and the trace with a successful handshake routes
data to the stream decoder. -/
theorem C8_connection_state_machine_witness :
    (runEvents connectionMade [ProtoEvent.hsFailure]).state =
      ConnState.handshake ∧
    decodeStream (runEvents connectionMade [ProtoEvent.hsFailure]) =
      Except.error () ∧
    (runEvents connectionMade
      [ProtoEvent.hsSuccess, ProtoEvent.dataRecv]).state =
      ConnState.stream ∧
    dataReceivedRoute (runEvents connectionMade
      [ProtoEvent.hsSuccess, ProtoEvent.dataRecv]) = DataRoute.toStream := by
  have h1 := (C8_connection_state_machine [ProtoEvent.hsFailure]).1
    (by decide)
  have h2 := (C8_connection_state_machine
    [ProtoEvent.hsSuccess, ProtoEvent.dataRecv]).2.1 (by decide)
  exact ⟨h1.1, h1.2.1, h2.1, h2.2⟩
